import Mathlib

/-!
Verification of the PDF-to-speech Cloud Function pipeline.

Shallow embedding of the Go sources:
  * `function.go` — `processPDFToSpeechHandler` (event filter, output-key
    derivation, configuration resolution, download → extract → synthesize
    pipeline with deferred temp-file cleanup);
  * `internal/tts/tts.go` — `SynthesizeLongAudio` (long-running-operation
    polling loop);
  * `internal/storage` — the download collaborator (modelled as an oracle:
    its outcome is a parameter of the pipeline).

Strings are `List Char`; environment variables follow Go's `os.Getenv`
convention (the empty string means "unset").  External collaborators
(storage download, text extraction, synthesis backend) are oracles passed
to the pipeline; the pipeline records its observable effects in a trace.
-/

/-- `strings.ToLower` (simple per-character case mapping). -/
def goToLower (s : List Char) : List Char := s.map Char.toLower

/-- `strings.HasSuffix s suffix`. -/
def goHasSuffix (s suffix : List Char) : Bool := suffix.isSuffixOf s

/-- `strings.HasPrefix s pre`. -/
def goHasPrefix (s pre : List Char) : Bool := pre.isPrefixOf s

/-- `strings.TrimSuffix s suffix`: drop the suffix if present, else return `s`. -/
def goTrimSuffix (s suffix : List Char) : List Char :=
  if suffix.isSuffixOf s then s.take (s.length - suffix.length) else s

/-- Longest suffix of `l` all of whose characters satisfy `f`. -/
def takeWhileEnd (f : Char → Bool) (l : List Char) : List Char :=
  (l.reverse.takeWhile f).reverse

/-- `unicode.IsSpace` restricted to its Latin-1 table ('\t', '\n', '\v',
'\f', '\r', ' ', U+0085, U+00A0); higher Unicode space classes are not
modelled. -/
def goIsSpace (c : Char) : Bool :=
  c == '\t' || c == '\n' || c == Char.ofNat 11 || c == Char.ofNat 12 ||
  c == '\r' || c == ' ' || c == Char.ofNat 133 || c == Char.ofNat 160

/-- `strings.TrimSpace`: drop leading and trailing whitespace. -/
def goTrimSpace (s : List Char) : List Char :=
  ((s.dropWhile goIsSpace).reverse.dropWhile goIsSpace).reverse

/-- `filepath.Base` on a Unix separator: empty path gives ".", trailing
separators are stripped, then everything after the last separator is kept;
a path of only separators gives "/". -/
def filepathBase (p : List Char) : List Char :=
  if p = [] then ['.']
  else
    let q := (p.reverse.dropWhile (· == '/')).reverse
    let r := takeWhileEnd (· != '/') q
    if r = [] then ['/'] else r

/-- `filepath.Ext`: the suffix beginning at the final dot in the final
path element; empty if that element has no dot. -/
def filepathExt (p : List Char) : List Char :=
  let s := takeWhileEnd (· != '/') p
  if s.any (· == '.') then '.' :: takeWhileEnd (· != '.') s else []

example : filepathBase "pdf-input/report.pdf".toList = "report.pdf".toList := by decide
example : filepathExt "report.pdf".toList = ".pdf".toList := by decide
example : filepathExt "report.v2.pdf".toList = ".pdf".toList := by decide
example : filepathBase "pdf-input/.pdf".toList = ".pdf".toList := by decide
example : filepathExt ".pdf".toList = ".pdf".toList := by decide
example : goTrimSuffix "report.pdf".toList ".pdf".toList = "report".toList := by decide
example : goTrimSuffix ".pdf".toList ".pdf".toList = [] := by decide
example : goTrimSpace "  \t ".toList = [] := by decide

/-! ## Pipeline data model (`function.go`) -/

/-- Payload of a GCS event (`StorageObjectData` in `function.go`). -/
structure StorageObjectData where
  bucket : List Char
  name : List Char
  contentType : List Char
deriving DecidableEq

/-- Environment variables read by the handler; `[]` means unset, matching
`os.Getenv` returning the empty string. -/
structure Env where
  projectNumber : List Char
  gcpLocation : List Char
  ttsVoiceName : List Char
deriving DecidableEq

/-- Outcome of `storage.DownloadFileToTemp` for this invocation. -/
inductive DownloadOutcome where
  | ok (tempPath : List Char)
  | err
deriving DecidableEq

/-- Outcome of `pdfprocessor.ExtractTextFromPDFFilePath` for this invocation. -/
inductive ExtractOutcome where
  | ok (text : List Char)
  | err
deriving DecidableEq

/-- Behaviour of the external collaborators during one invocation. -/
structure Collab where
  download : DownloadOutcome
  extract : ExtractOutcome
  synthOk : Bool
deriving DecidableEq

/-- The argument record of a call to `tts.SynthesizeLongAudio`. -/
structure SynthCall where
  text : List Char
  parent : List Char
  outputGcsUri : List Char
  voiceName : List Char
deriving DecidableEq

/-- Observable effects of one handler invocation: download attempts,
extraction attempts, synthesis calls issued, temp-file cleanup calls. -/
structure Trace where
  downloads : Nat
  extracts : Nat
  synthCalls : List SynthCall
  cleanups : Nat
deriving DecidableEq

def Trace.empty : Trace := ⟨0, 0, [], 0⟩

/-- The error cases `processPDFToSpeechHandler` can return, by stage. -/
inductive ProcError where
  | config
  | download
  | extract
  | synth
deriving DecidableEq

def inputFolderPrefix : List Char := "pdf-input/".toList
def dotPdfSuffix : List Char := ".pdf".toList
def outputFolderPrefix : List Char := "mp3-output/".toList
def defaultVoice : List Char := "en-US-Wavenet-D".toList

/-- The suffix/prefix guard of `processPDFToSpeechHandler` (lines 44–52):
the notification is acted on iff the lowercased key ends in ".pdf" and the
key starts with "pdf-input/". -/
def eventFilterAccept (name : List Char) : Bool :=
  goHasSuffix (goToLower name) dotPdfSuffix && goHasPrefix name inputFolderPrefix

/-- Output-key derivation of `processPDFToSpeechHandler` (lines 57–61):
`outputFolderPrefix + TrimSuffix(Base(name), Ext(Base(name))) + ".mp3"`. -/
def deriveOutputKey (name : List Char) : List Char :=
  let baseFileName := filepathBase name
  outputFolderPrefix ++ goTrimSuffix baseFileName (filepathExt baseFileName)
    ++ ".mp3".toList

/-- The `gs://<bucket>/<derived key>` target URI handed to the synthesizer. -/
def outputGcsUriOf (bucket name : List Char) : List Char :=
  "gs://".toList ++ bucket ++ "/".toList ++ deriveOutputKey name

/-- `processPDFToSpeechHandler` from `function.go`, with the collaborators'
behaviour supplied as an oracle and the side effects recorded in a trace.
Control flow mirrors the Go source: suffix check, prefix check, output-key
derivation, required-configuration check, voice default, download (with
deferred cleanup), extraction, whitespace-only skip, synthesis. -/
def processPDFToSpeechHandler (env : Env) (collab : Collab)
    (e : StorageObjectData) : Except ProcError Unit × Trace :=
  if !goHasSuffix (goToLower e.name) dotPdfSuffix then
    (.ok (), Trace.empty)
  else if !goHasPrefix e.name inputFolderPrefix then
    (.ok (), Trace.empty)
  else
    let outputAudioObjectName := deriveOutputKey e.name
    let outputGCSURI := "gs://".toList ++ e.bucket ++ "/".toList ++ outputAudioObjectName
    if env.projectNumber == ([] : List Char) || env.gcpLocation == ([] : List Char) then
      (.error .config, Trace.empty)
    else
      let ttsVoiceName := if env.ttsVoiceName == ([] : List Char) then defaultVoice
        else env.ttsVoiceName
      match collab.download with
      | .err => (.error .download, ⟨1, 0, [], 0⟩)
      | .ok _tempPDFPath =>
        -- from here on, `defer cleanupTempFile()` runs on every exit path
        match collab.extract with
        | .err => (.error .extract, ⟨1, 1, [], 1⟩)
        | .ok extractedText =>
          if goTrimSpace extractedText == ([] : List Char) then
            (.ok (), ⟨1, 1, [], 1⟩)
          else
            let call : SynthCall :=
              { text := extractedText
                parent := "projects/".toList ++ env.projectNumber
                  ++ "/locations/".toList ++ env.gcpLocation
                outputGcsUri := outputGCSURI
                voiceName := ttsVoiceName }
            if collab.synthOk then (.ok (), ⟨1, 1, [call], 1⟩)
            else (.error .synth, ⟨1, 1, [call], 1⟩)

example :
    (processPDFToSpeechHandler ⟨"123".toList, "us-central1".toList, []⟩
      ⟨.ok "/tmp/t".toList, .ok "hello".toList, true⟩
      ⟨"b".toList, "pdf-input/report.pdf".toList, "application/pdf".toList⟩).1
      = .ok () := by rfl

example :
    (processPDFToSpeechHandler ⟨"123".toList, "us-central1".toList, []⟩
      ⟨.ok "/tmp/t".toList, .ok "hello".toList, true⟩
      ⟨"b".toList, "notes.txt".toList, "text/plain".toList⟩).2 = Trace.empty := by
  decide

/-! ## Poller model (`internal/tts/tts.go`, `SynthesizeLongAudio`)

The polling loop issues `GetOperation`, and then: a fetch error returns
immediately; a done operation with an embedded error returns that error; a
done operation without error tries to decode the completion metadata (a
decode failure is only logged) and returns success; otherwise it sleeps 10
seconds and repeats.  The backend is stubbed as the list of successive
`GetOperation` results; `doneOk md` carries `none` for "no metadata" and
`some b` for "metadata present, decodes iff `b`". -/

/-- One `GetOperation` result from the stubbed backend. -/
inductive PollResponse where
  | notDone
  | doneOk (metadata : Option Bool)
  | doneErr (errMsg : List Char)
  | fetchErr (errMsg : List Char)
deriving DecidableEq

/-- How the polling loop of `SynthesizeLongAudio` ends.  `outOfResponses`
is a stub artifact: the backend script ran out while the loop would have
kept polling. -/
inductive SynthOutcome where
  | ok
  | statusFetchFailed (errMsg : List Char)
  | operationFailed (errMsg : List Char)
  | outOfResponses
deriving DecidableEq

/-- Effects of one run of the polling loop: `GetOperation` calls issued,
10-second sleeps performed, metadata-decode warnings logged. -/
structure PollTrace where
  polls : Nat
  sleeps : Nat
  decodeWarnings : Nat
deriving DecidableEq

/-- The polling loop of `SynthesizeLongAudio` (lines 55–79): fetch status;
on fetch error return it; on done-with-error return the embedded error; on
done-without-error log a warning if the metadata fails to decode and return
success; on not-done sleep once and loop. -/
def pollLoop : List PollResponse → SynthOutcome × PollTrace
  | [] => (.outOfResponses, ⟨0, 0, 0⟩)
  | .fetchErr m :: _ => (.statusFetchFailed m, ⟨1, 0, 0⟩)
  | .doneErr m :: _ => (.operationFailed m, ⟨1, 0, 0⟩)
  | .doneOk md :: _ => (.ok, ⟨1, 0, if md == some false then 1 else 0⟩)
  | .notDone :: rest =>
    let (res, t) := pollLoop rest
    (res, ⟨t.polls + 1, t.sleeps + 1, t.decodeWarnings⟩)

example : pollLoop [.notDone, .notDone, .doneErr "boom".toList]
    = (.operationFailed "boom".toList, ⟨3, 2, 0⟩) := by decide
example : pollLoop [.notDone, .doneOk (some false)] = (.ok, ⟨2, 1, 1⟩) := by decide

/-! ### Timed poller with cancellation

`SynthesizeLongAudio` passes the caller's context to every `GetOperation`
call, which fails with the context's cancellation error once the context
is canceled; `time.Sleep(10 * time.Second)` is not context-aware, so a
cancellation arriving during a sleep does not shorten it.  Time is
discrete: a sleep advances the clock by `pollInterval`; fetches are
instantaneous.  `cancelAt` is the absolute time at which the caller's
cancellation fires. -/

/-- Why a `GetOperation` call failed. -/
inductive FetchFailure where
  | backend (errMsg : List Char)
  | contextCanceled
deriving DecidableEq

/-- Result of the timed polling loop. -/
inductive TimedOutcome where
  | ok
  | statusFetchFailed (cause : FetchFailure)
  | operationFailed (errMsg : List Char)
  | outOfResponses
deriving DecidableEq

/-- The fixed sleep between polls, in seconds (`10 * time.Second`). -/
def pollInterval : Nat := 10

/-- Timed polling loop: at clock `t`, a `GetOperation` whose context is
already canceled (`cancelAt ≤ t`) fails with the cancellation; otherwise
the next scripted response is consumed as in `pollLoop`.  Returns the
outcome, the clock value at return, and the number of `GetOperation` calls
issued. -/
def pollLoopTimed (cancelAt : Nat) :
    List PollResponse → Nat → TimedOutcome × Nat × Nat
  | [], t =>
    if cancelAt ≤ t then (.statusFetchFailed .contextCanceled, t, 1)
    else (.outOfResponses, t, 0)
  | .fetchErr m :: _, t =>
    if cancelAt ≤ t then (.statusFetchFailed .contextCanceled, t, 1)
    else (.statusFetchFailed (.backend m), t, 1)
  | .doneErr m :: _, t =>
    if cancelAt ≤ t then (.statusFetchFailed .contextCanceled, t, 1)
    else (.operationFailed m, t, 1)
  | .doneOk _ :: _, t =>
    if cancelAt ≤ t then (.statusFetchFailed .contextCanceled, t, 1)
    else (.ok, t, 1)
  | .notDone :: rest, t =>
    if cancelAt ≤ t then (.statusFetchFailed .contextCanceled, t, 1)
    else
      let (res, tf, p) := pollLoopTimed cancelAt rest (t + pollInterval)
      (res, tf, p + 1)

/-- Once the context is canceled, the very next `GetOperation` call fails
with the cancellation, whatever the backend would have answered. -/
theorem pollLoopTimed_canceled (cancelAt : Nat) (rs : List PollResponse)
    (t : Nat) (h : cancelAt ≤ t) :
    pollLoopTimed cancelAt rs t
      = (.statusFetchFailed .contextCanceled, t, 1) := by
  cases rs with
  | nil => simp [pollLoopTimed, h]
  | cons r rest => cases r <;> simp [pollLoopTimed, h]

example : pollLoopTimed 5 [.notDone, .notDone, .doneOk none] 0
    = (.statusFetchFailed .contextCanceled, 10, 2) := by decide
example : pollLoopTimed 1000 [.notDone, .doneOk none] 0 = (.ok, 10, 2) := by decide

/-! ## Theorems -/

/-- C7: the poller polls while the backend reports not-done and stops at the
first terminal report: after `k` not-done responses followed by a
done-with-embedded-error response, it has issued exactly `k + 1` status
fetches and `k` sleeps — independent of any further scripted responses, so
no poll is ever issued after a terminal state is observed — and returns the
remote-synthesis failure carrying the embedded error message.  With `k = 2`
(not-done, not-done, done-with-error) this is exactly two sleep/poll cycles
after the initial fetch. -/
theorem C7_poller_stops_at_terminal_error (k : Nat) (m : List Char)
    (rest : List PollResponse) :
    pollLoop (List.replicate k .notDone ++ .doneErr m :: rest)
      = (.operationFailed m, ⟨k + 1, k, 0⟩) := by
  induction k with
  | zero => simp [pollLoop]
  | succ n ih => simp [List.replicate_succ, pollLoop, ih]

/-- C8: whenever the backend reports done with no embedded error, the
poller returns success whatever happens with the completion metadata
(`none`: absent; `some true`: decodes; `some false`: fails to decode — the
failure is only logged as a warning, never propagated). -/
theorem C8_metadata_decode_failure_nonfatal (k : Nat) (md : Option Bool)
    (rest : List PollResponse) :
    pollLoop (List.replicate k .notDone ++ .doneOk md :: rest)
      = (.ok, ⟨k + 1, k, if md == some false then 1 else 0⟩) := by
  induction k with
  | zero => simp [pollLoop]
  | succ n ih => simp [List.replicate_succ, pollLoop, ih]

/-- C9 counterexample: with cancellation firing at time 5, during the sleep
that follows a not-done poll at time 0, the poller still issues one more
`GetOperation` (2 polls in total, the second after the cancellation), and
the error it returns is the status-fetch failure kind — the same
constructor an ordinary backend fetch error produces (second conjunct) —
not a distinct cancellation-kind error. -/
theorem C9_cancellation_counterexample :
    pollLoopTimed 5 [.notDone, .notDone, .doneOk none] 0
      = (.statusFetchFailed .contextCanceled, 10, 2) ∧
    pollLoopTimed 1000 [.fetchErr "x".toList] 0
      = (.statusFetchFailed (.backend "x".toList), 0, 1) := by
  constructor <;> decide

/-- C9 amended: if the caller's cancellation fires strictly during the
sleep that follows a not-done poll at time `t` (`t < cancelAt ≤ t +
pollInterval`), the sleep completes in full, exactly one further status
fetch is issued — it fails because the context is canceled, regardless of
any remaining scripted backend responses — and the poller returns the
status-fetch error wrapping the cancellation at time `t + pollInterval`,
i.e. strictly within one poll-interval of the cancellation. -/
theorem C9_cancellation_during_sleep (cancelAt t : Nat) (rest : List PollResponse)
    (h1 : t < cancelAt) (h2 : cancelAt ≤ t + pollInterval) :
    pollLoopTimed cancelAt (.notDone :: rest) t
      = (.statusFetchFailed .contextCanceled, t + pollInterval, 2) ∧
    (t + pollInterval) - cancelAt < pollInterval := by
  have h0 : ¬ cancelAt ≤ t := by omega
  constructor
  · simp [pollLoopTimed, h0, pollLoopTimed_canceled cancelAt rest (t + pollInterval) h2]
  · omega

/-- Witness for C9 amended: cancellation at time 5 during the sleep
starting at time 0. -/
theorem C9_cancellation_during_sleep_witness :
    pollLoopTimed 5 (.notDone :: [.doneOk none]) 0
      = (.statusFetchFailed .contextCanceled, 0 + pollInterval, 2) ∧
    (0 + pollInterval) - 5 < pollInterval :=
  C9_cancellation_during_sleep 5 0 [.doneOk none] (by decide) (by decide)

/-- An accepted, configured notification always reaches the download stage
(exactly one download attempt), whatever the collaborators do. -/
theorem processPDFToSpeechHandler_downloads (env : Env) (collab : Collab)
    (e : StorageObjectData)
    (hacc : eventFilterAccept e.name = true)
    (hp : env.projectNumber ≠ []) (hl : env.gcpLocation ≠ []) :
    (processPDFToSpeechHandler env collab e).2.downloads = 1 := by
  have hsp := hacc
  simp only [eventFilterAccept, Bool.and_eq_true] at hsp
  obtain ⟨hsuf, hpre⟩ := hsp
  have hpb : (env.projectNumber == ([] : List Char)) = false :=
    beq_eq_false_iff_ne.mpr hp
  have hlb : (env.gcpLocation == ([] : List Char)) = false :=
    beq_eq_false_iff_ne.mpr hl
  obtain ⟨dl, ex, so⟩ := collab
  cases dl <;> cases ex <;>
    simp_all [processPDFToSpeechHandler] <;>
    split_ifs <;> simp

/-- C1: a notification whose key fails the ".pdf" suffix check (on the
lowercased key) or the "pdf-input/" prefix check makes the handler return
success with an empty trace: no download, no extraction, no synthesis call,
and no error. -/
theorem C1_filtered_key_is_noop_success (env : Env) (collab : Collab)
    (e : StorageObjectData)
    (h : goHasSuffix (goToLower e.name) dotPdfSuffix = false ∨
      goHasPrefix e.name inputFolderPrefix = false) :
    processPDFToSpeechHandler env collab e = (.ok (), Trace.empty) := by
  rcases h with h | h
  · simp [processPDFToSpeechHandler, h]
  · cases hs : goHasSuffix (goToLower e.name) dotPdfSuffix <;>
      simp [processPDFToSpeechHandler, hs, h]

/-- Witness for C1: a key with the right suffix but the wrong prefix. -/
theorem C1_filtered_key_is_noop_success_witness :
    processPDFToSpeechHandler ⟨"123".toList, "us".toList, []⟩
      ⟨.ok "/tmp/t".toList, .ok "hello".toList, true⟩
      ⟨"b".toList, "other/report.pdf".toList, []⟩ = (.ok (), Trace.empty) :=
  C1_filtered_key_is_noop_success _ _ _ (Or.inr (by decide))

/-- C4: for an accepted key, a missing `PROJECT_NUMBER` or `GCP_LOCATION`
makes the handler return the configuration error with an empty trace — so
before any download, extraction or synthesis — while with both present the
handler never returns the configuration error, and an unset
`TTS_VOICE_NAME` only makes every synthesis call use the default voice
"en-US-Wavenet-D". -/
theorem C4_missing_config_fails_before_io (env : Env) (collab : Collab)
    (e : StorageObjectData)
    (hacc : eventFilterAccept e.name = true) :
    ((env.projectNumber = [] ∨ env.gcpLocation = []) →
      processPDFToSpeechHandler env collab e = (.error .config, Trace.empty)) ∧
    (env.projectNumber ≠ [] → env.gcpLocation ≠ [] →
      (processPDFToSpeechHandler env collab e).1 ≠ Except.error ProcError.config ∧
      (env.ttsVoiceName = [] →
        ∀ c ∈ (processPDFToSpeechHandler env collab e).2.synthCalls,
          c.voiceName = defaultVoice)) := by
  have hsp := hacc
  simp only [eventFilterAccept, Bool.and_eq_true] at hsp
  obtain ⟨hsuf, hpre⟩ := hsp
  obtain ⟨dl, ex, so⟩ := collab
  constructor
  · rintro (hm | hm) <;> simp [processPDFToSpeechHandler, hsuf, hpre, hm]
  · intro hp hl
    have hpb : (env.projectNumber == ([] : List Char)) = false :=
      beq_eq_false_iff_ne.mpr hp
    have hlb : (env.gcpLocation == ([] : List Char)) = false :=
      beq_eq_false_iff_ne.mpr hl
    cases dl <;> cases ex <;>
      simp [processPDFToSpeechHandler, hsuf, hpre, hpb, hlb] <;>
      split_ifs <;> simp_all

/-- Witness for C4 at `pdf-input/report.pdf`: unset configuration yields
the config error with empty trace; set configuration with unset voice name
yields no config error and the default voice on the issued synthesis
call. -/
theorem C4_missing_config_fails_before_io_witness :
    (processPDFToSpeechHandler ⟨[], "us".toList, []⟩
        ⟨.ok "/tmp/t".toList, .ok "hello".toList, true⟩
        ⟨"b".toList, "pdf-input/report.pdf".toList, []⟩
        = (.error .config, Trace.empty)) ∧
    ((processPDFToSpeechHandler ⟨"123".toList, "us".toList, []⟩
        ⟨.ok "/tmp/t".toList, .ok "hello".toList, true⟩
        ⟨"b".toList, "pdf-input/report.pdf".toList, []⟩).1
        ≠ Except.error ProcError.config ∧
      (∀ c ∈ (processPDFToSpeechHandler ⟨"123".toList, "us".toList, []⟩
        ⟨.ok "/tmp/t".toList, .ok "hello".toList, true⟩
        ⟨"b".toList, "pdf-input/report.pdf".toList, []⟩).2.synthCalls,
          c.voiceName = defaultVoice)) := by
  refine ⟨?_, ?_, ?_⟩
  · exact (C4_missing_config_fails_before_io ⟨[], "us".toList, []⟩
      ⟨.ok "/tmp/t".toList, .ok "hello".toList, true⟩
      ⟨"b".toList, "pdf-input/report.pdf".toList, []⟩ (by decide)).1
      (Or.inl rfl)
  · exact ((C4_missing_config_fails_before_io ⟨"123".toList, "us".toList, []⟩
      ⟨.ok "/tmp/t".toList, .ok "hello".toList, true⟩
      ⟨"b".toList, "pdf-input/report.pdf".toList, []⟩ (by decide)).2
      (by decide) (by decide)).1
  · exact ((C4_missing_config_fails_before_io ⟨"123".toList, "us".toList, []⟩
      ⟨.ok "/tmp/t".toList, .ok "hello".toList, true⟩
      ⟨"b".toList, "pdf-input/report.pdf".toList, []⟩ (by decide)).2
      (by decide) (by decide)).2 rfl

/-- C5: for an accepted, configured notification whose download and
extraction succeed, a whitespace-only extracted text makes the handler
return success with no synthesis call issued (and the temp file cleaned
up). -/
theorem C5_whitespace_text_skips_synthesis (env : Env) (collab : Collab)
    (e : StorageObjectData) (p text : List Char)
    (hacc : eventFilterAccept e.name = true)
    (hp : env.projectNumber ≠ []) (hl : env.gcpLocation ≠ [])
    (hdl : collab.download = .ok p) (hex : collab.extract = .ok text)
    (hws : goTrimSpace text = []) :
    processPDFToSpeechHandler env collab e = (.ok (), ⟨1, 1, [], 1⟩) := by
  have hsp := hacc
  simp only [eventFilterAccept, Bool.and_eq_true] at hsp
  obtain ⟨hsuf, hpre⟩ := hsp
  have hpb : (env.projectNumber == ([] : List Char)) = false :=
    beq_eq_false_iff_ne.mpr hp
  have hlb : (env.gcpLocation == ([] : List Char)) = false :=
    beq_eq_false_iff_ne.mpr hl
  simp [processPDFToSpeechHandler, hsuf, hpre, hpb, hlb, hdl, hex, hws]

/-- Witness for C5: whitespace-only extracted text on
`pdf-input/report.pdf`. -/
theorem C5_whitespace_text_skips_synthesis_witness :
    processPDFToSpeechHandler ⟨"123".toList, "us".toList, []⟩
      ⟨.ok "/tmp/t".toList, .ok "  \t ".toList, true⟩
      ⟨"b".toList, "pdf-input/report.pdf".toList, []⟩
      = (.ok (), ⟨1, 1, [], 1⟩) :=
  C5_whitespace_text_skips_synthesis _ _ _ "/tmp/t".toList "  \t ".toList
    (by decide) (by decide) (by decide) rfl rfl (by decide)

/-- C6: for an accepted, configured notification whose download succeeds,
the temp-file cleanup runs exactly once by the time the handler returns —
on the success path and on the extraction-failure, whitespace-skip and
synthesis-failure paths alike. -/
theorem C6_temp_file_cleaned_exactly_once (env : Env) (collab : Collab)
    (e : StorageObjectData) (p : List Char)
    (hacc : eventFilterAccept e.name = true)
    (hp : env.projectNumber ≠ []) (hl : env.gcpLocation ≠ [])
    (hdl : collab.download = .ok p) :
    (processPDFToSpeechHandler env collab e).2.cleanups = 1 := by
  have hsp := hacc
  simp only [eventFilterAccept, Bool.and_eq_true] at hsp
  obtain ⟨hsuf, hpre⟩ := hsp
  have hpb : (env.projectNumber == ([] : List Char)) = false :=
    beq_eq_false_iff_ne.mpr hp
  have hlb : (env.gcpLocation == ([] : List Char)) = false :=
    beq_eq_false_iff_ne.mpr hl
  obtain ⟨dl, ex, so⟩ := collab
  cases ex <;>
    simp_all [processPDFToSpeechHandler] <;>
    split_ifs <;> simp

/-- Witness for C6: a run whose synthesis fails still cleans up once. -/
theorem C6_temp_file_cleaned_exactly_once_witness :
    (processPDFToSpeechHandler ⟨"123".toList, "us".toList, []⟩
      ⟨.ok "/tmp/t".toList, .ok "hello".toList, false⟩
      ⟨"b".toList, "pdf-input/report.pdf".toList, []⟩).2.cleanups = 1 :=
  C6_temp_file_cleaned_exactly_once _ _ _ "/tmp/t".toList
    (by decide) (by decide) (by decide) rfl

/-- C10: every synthesis call a handler run issues targets
`gs://<input bucket>/<derived output key>` — the same bucket the
notification came from. -/
theorem C10_synthesis_targets_input_bucket (env : Env) (collab : Collab)
    (e : StorageObjectData) (c : SynthCall)
    (hc : c ∈ (processPDFToSpeechHandler env collab e).2.synthCalls) :
    c.outputGcsUri = outputGcsUriOf e.bucket e.name := by
  obtain ⟨dl, ex, so⟩ := collab
  revert hc
  cases hs : goHasSuffix (goToLower e.name) ".pdf".toList <;>
  cases hpr : goHasPrefix e.name inputFolderPrefix <;>
  cases dl <;> cases ex <;>
    simp [processPDFToSpeechHandler, hs, hpr, Trace.empty, outputGcsUriOf] <;>
    split_ifs <;> simp_all [outputGcsUriOf]

/-- Witness for C10: the single synthesis call of a successful run on
`pdf-input/report.pdf` in bucket `b` targets
`gs://b/mp3-output/report.mp3`. -/
theorem C10_synthesis_targets_input_bucket_witness :
    ({ text := "hello".toList
       parent := "projects/123/locations/us".toList
       outputGcsUri := "gs://b/mp3-output/report.mp3".toList
       voiceName := defaultVoice } : SynthCall).outputGcsUri
      = outputGcsUriOf "b".toList "pdf-input/report.pdf".toList :=
  C10_synthesis_targets_input_bucket ⟨"123".toList, "us".toList, []⟩
    ⟨.ok "/tmp/t".toList, .ok "hello".toList, true⟩
    ⟨"b".toList, "pdf-input/report.pdf".toList, []⟩ _ (by decide)

/-- Appending characters that all satisfy `f` extends `takeWhileEnd f`. -/
theorem takeWhileEnd_append_right (f : Char → Bool) (l r : List Char)
    (hr : ∀ x ∈ r, f x = true) :
    takeWhileEnd f (l ++ r) = takeWhileEnd f l ++ r := by
  unfold takeWhileEnd
  rw [List.reverse_append, List.takeWhile_append_of_pos (by simpa using hr),
    List.reverse_append, List.reverse_reverse]

/-- A final character refuted by `f` empties `takeWhileEnd f`. -/
theorem takeWhileEnd_break (f : Char → Bool) (c : Char) (l : List Char)
    (hc : f c = false) : takeWhileEnd f (l ++ [c]) = [] := by
  unfold takeWhileEnd
  simp [List.reverse_append, List.takeWhile_cons, hc]

/-- Stripping trailing separators is a no-op when the last character is not
a separator. -/
theorem dropTrailing_noop (l : List Char) (c : Char) (hc : (c == '/') = false) :
    ((l ++ [c]).reverse.dropWhile (· == '/')).reverse = l ++ [c] := by
  simp [List.reverse_append, List.dropWhile_cons, hc]

/-- `filepath.Base` of `pdf-input/<stem>.pdf` is `<stem>.pdf` when the stem
has no separator. -/
theorem filepathBase_clean (stem : List Char) (hs : '/' ∉ stem) :
    filepathBase (inputFolderPrefix ++ stem ++ dotPdfSuffix)
      = stem ++ dotPdfSuffix := by
  have hne : inputFolderPrefix ++ stem ++ dotPdfSuffix ≠ [] := by
    simp [inputFolderPrefix]
  have h1 : inputFolderPrefix ++ stem ++ dotPdfSuffix
      = ((inputFolderPrefix ++ stem) ++ ['.', 'p', 'd']) ++ ['f'] := by
    simp [inputFolderPrefix, dotPdfSuffix, List.append_assoc]
  have hq : ((inputFolderPrefix ++ stem ++ dotPdfSuffix).reverse.dropWhile
      (· == '/')).reverse = inputFolderPrefix ++ stem ++ dotPdfSuffix := by
    rw [h1]; exact dropTrailing_noop _ 'f' (by decide)
  have h2 : inputFolderPrefix ++ stem ++ dotPdfSuffix
      = ("pdf-input".toList ++ ['/']) ++ (stem ++ dotPdfSuffix) := by
    simp [inputFolderPrefix, dotPdfSuffix, List.append_assoc]
  have hall : ∀ x ∈ stem ++ dotPdfSuffix, (x != '/') = true := by
    intro x hx
    rcases List.mem_append.mp hx with h | h
    · rw [bne_iff_ne]; rintro rfl; exact hs h
    · rw [bne_iff_ne]; rintro rfl; simp [dotPdfSuffix] at h
  have hr : takeWhileEnd (· != '/') (inputFolderPrefix ++ stem ++ dotPdfSuffix)
      = stem ++ dotPdfSuffix := by
    rw [h2, takeWhileEnd_append_right _ _ _ hall,
      takeWhileEnd_break _ '/' _ (by decide), List.nil_append]
  have hrne : stem ++ dotPdfSuffix ≠ [] := by simp [dotPdfSuffix]
  simp only [filepathBase]
  rw [if_neg hne, hq, hr, if_neg hrne]

/-- `filepath.Ext` of `<stem>.pdf` is `.pdf` when the stem has no
separator. -/
theorem filepathExt_clean (stem : List Char) (hs : '/' ∉ stem) :
    filepathExt (stem ++ dotPdfSuffix) = dotPdfSuffix := by
  have hall : ∀ x ∈ stem ++ dotPdfSuffix, (x != '/') = true := by
    intro x hx
    rcases List.mem_append.mp hx with h | h
    · rw [bne_iff_ne]; rintro rfl; exact hs h
    · rw [bne_iff_ne]; rintro rfl; simp [dotPdfSuffix] at h
  have hsval : takeWhileEnd (· != '/') (stem ++ dotPdfSuffix)
      = stem ++ dotPdfSuffix := by
    have := takeWhileEnd_append_right (· != '/') [] (stem ++ dotPdfSuffix) hall
    simpa [takeWhileEnd] using this
  have hany : (stem ++ dotPdfSuffix).any (· == '.') = true := by
    simp [dotPdfSuffix]
  have h3 : stem ++ dotPdfSuffix = (stem ++ ['.']) ++ ['p', 'd', 'f'] := by
    simp [dotPdfSuffix, List.append_assoc]
  have hdot : takeWhileEnd (· != '.') (stem ++ dotPdfSuffix) = ['p', 'd', 'f'] := by
    rw [h3, takeWhileEnd_append_right _ _ _ (by decide),
      takeWhileEnd_break _ '.' _ (by decide), List.nil_append]
  simp only [filepathExt]
  rw [hsval, if_pos hany, hdot]
  decide

/-- `strings.TrimSuffix` undoes appending the suffix. -/
theorem goTrimSuffix_strip (stem : List Char) :
    goTrimSuffix (stem ++ dotPdfSuffix) dotPdfSuffix = stem := by
  unfold goTrimSuffix
  rw [if_pos (List.isSuffixOf_iff_suffix.mpr (List.suffix_append _ _))]
  have hlen : (stem ++ dotPdfSuffix).length - dotPdfSuffix.length
      = stem.length := by
    simp [dotPdfSuffix]
  rw [hlen, List.take_left]

/-- The derived output key for `pdf-input/<stem>.pdf` (slash-free stem) is
`mp3-output/<stem>.mp3`. -/
theorem deriveOutputKey_clean (stem : List Char) (hs : '/' ∉ stem) :
    deriveOutputKey (inputFolderPrefix ++ stem ++ dotPdfSuffix)
      = outputFolderPrefix ++ stem ++ ".mp3".toList := by
  simp only [deriveOutputKey]
  rw [filepathBase_clean stem hs, filepathExt_clean stem hs, goTrimSuffix_strip]

/-- Every key `pdf-input/<stem>.pdf` passes the filter. -/
theorem eventFilterAccept_clean (stem : List Char) :
    eventFilterAccept (inputFolderPrefix ++ stem ++ dotPdfSuffix) = true := by
  unfold eventFilterAccept
  rw [Bool.and_eq_true]
  constructor
  · unfold goHasSuffix goToLower
    rw [List.isSuffixOf_iff_suffix]
    have hmap : (inputFolderPrefix ++ stem ++ dotPdfSuffix).map Char.toLower
        = (inputFolderPrefix ++ stem).map Char.toLower ++ dotPdfSuffix := by
      rw [List.map_append]
      congr 1
    rw [hmap]
    exact List.suffix_append _ _
  · unfold goHasPrefix
    rw [List.isPrefixOf_iff_prefix, List.append_assoc]
    exact List.prefix_append _ _

/-- C2: every key of the form `pdf-input/<stem>.pdf` (slash-free stem) is
accepted, and its derived output key is `mp3-output/<stem>.mp3`: the output
prefix, then the base filename with its extension removed, then ".mp3". -/
theorem C2_output_key_derivation (stem : List Char) (hs : '/' ∉ stem) :
    eventFilterAccept (inputFolderPrefix ++ stem ++ dotPdfSuffix) = true ∧
    deriveOutputKey (inputFolderPrefix ++ stem ++ dotPdfSuffix)
      = outputFolderPrefix ++ stem ++ ".mp3".toList :=
  ⟨eventFilterAccept_clean stem, deriveOutputKey_clean stem hs⟩

/-- Witness for C2: input key `pdf-input/report.pdf` yields output key
`mp3-output/report.mp3`. -/
theorem C2_output_key_derivation_witness :
    eventFilterAccept (inputFolderPrefix ++ "report".toList ++ dotPdfSuffix) = true ∧
    deriveOutputKey (inputFolderPrefix ++ "report".toList ++ dotPdfSuffix)
      = outputFolderPrefix ++ "report".toList ++ ".mp3".toList :=
  C2_output_key_derivation "report".toList (by decide)

/-- C3 counterexample: the key `pdf-input/.pdf` passes both checks yet its
base name is empty after stripping the prefix and the extension; the
filter nevertheless accepts it and a configured run proceeds to download
instead of rejecting. -/
theorem C3_empty_base_name_not_rejected :
    eventFilterAccept "pdf-input/.pdf".toList = true ∧
    (processPDFToSpeechHandler ⟨"123".toList, "us".toList, []⟩
      ⟨.ok "/tmp/t".toList, .ok "hello".toList, true⟩
      ⟨"b".toList, "pdf-input/.pdf".toList, []⟩).2.downloads = 1 := by
  constructor <;> decide

/-- C3 amended: a key that passes the suffix and prefix checks is accepted
even when its base filename is empty after stripping the prefix and the
extension; the notification is processed normally (the decision is a total
function, nothing is thrown), with derived output key `mp3-output/.mp3`. -/
theorem C3_empty_base_name_processed (env : Env) (collab : Collab)
    (bucket ct : List Char)
    (hp : env.projectNumber ≠ []) (hl : env.gcpLocation ≠ []) :
    eventFilterAccept "pdf-input/.pdf".toList = true ∧
    deriveOutputKey "pdf-input/.pdf".toList = "mp3-output/.mp3".toList ∧
    (processPDFToSpeechHandler env collab
      ⟨bucket, "pdf-input/.pdf".toList, ct⟩).2.downloads = 1 := by
  refine ⟨by decide, by decide, ?_⟩
  have h : eventFilterAccept "pdf-input/.pdf".toList = true := by decide
  exact processPDFToSpeechHandler_downloads env collab
    ⟨bucket, "pdf-input/.pdf".toList, ct⟩ h hp hl

/-- Witness for C3 amended: a concrete configured run on
`pdf-input/.pdf`. -/
theorem C3_empty_base_name_processed_witness :
    eventFilterAccept "pdf-input/.pdf".toList = true ∧
    deriveOutputKey "pdf-input/.pdf".toList = "mp3-output/.mp3".toList ∧
    (processPDFToSpeechHandler ⟨"123".toList, "us".toList, []⟩
      ⟨.ok "/tmp/t".toList, .ok "hello".toList, true⟩
      ⟨"b".toList, "pdf-input/.pdf".toList, []⟩).2.downloads = 1 :=
  C3_empty_base_name_processed _ _ "b".toList [] (by decide) (by decide)
